import Mathlib

/-!
Verification of the input→computation→visualization pipeline of the
Civil Engineering Calculators web app (src/app.js).

Embedding conventions:
* A parsed input field is `Option ℚ`: `none` models `parseFloat` returning
  `NaN` (a parse failure); `some x` models a successfully parsed value.
  Every numeric literal appearing in the source is an exact decimal, so the
  parsed values are rationals; formulas that use transcendental functions
  (`Math.tan`, `Math.exp`, `Math.sqrt`, `Math.pow` with fractional exponent,
  `Math.PI`) are evaluated over `ℝ`, so values are exact reals rather than
  IEEE doubles.
* `Number.prototype.toFixed(dp)` is modelled as exact rounding to `dp`
  decimal places with ties away from zero (`jsRoundQ`), followed by decimal
  rendering (`renderFixed`).
* A canvas render is the list of drawing primitives (`Prim`) issued after
  the initial `clearRect`; `[]` therefore means "cleared, nothing drawn".
  Stroke/fill style and line width are presentational attributes with no
  geometric content and are not recorded.
* Each `updateX` handler in the source becomes a pure function from the
  current field values (plus the canvas dimensions) to the displayed text
  and the primitive list, mirroring the source control flow.
-/

/-- JS `x || y` applied to numbers, as used in `Math.tan(phiRad || 1e-6)`:
yields `y` when `x` is falsy (here: zero), else `x`. -/
noncomputable def jsOr (x y : ℝ) : ℝ := if x = 0 then y else x

/-- Floor of a rational, written out on the numerator and denominator. -/
def qfloor (x : ℚ) : ℤ := x.num / x.den

/-- Rounding of `toFixed`: round to the nearest integer, ties away from
zero. -/
def jsRoundQ (x : ℚ) : ℤ :=
  if x < 0 then -qfloor (-x + 1 / 2) else qfloor (x + 1 / 2)

/-- Little-endian base-10 digits of `n`, with explicit fuel (first
argument) so that the definition is structural and kernel-reducible. -/
def toDigitsFuel : ℕ → ℕ → List ℕ
  | 0, _ => []
  | fuel + 1, n => if n = 0 then [] else n % 10 :: toDigitsFuel fuel (n / 10)

/-- Little-endian base-10 digits of `n` (empty for `0`). -/
def natDigitList (n : ℕ) : List ℕ := toDigitsFuel n n

/-- Big-endian decimal digits of `n` (a single `0` for zero). -/
def digitsBE (n : ℕ) : List ℕ :=
  if n = 0 then [0] else (natDigitList n).reverse

/-- Fractional part of a fixed-point rendering: the big-endian digits of
`f` left-padded with zeros to `dp` places. -/
def padDigits (dp f : ℕ) : List ℕ :=
  List.replicate (dp - (natDigitList f).length) 0 ++ (natDigitList f).reverse

/-- Character for a single decimal digit. -/
def digitChar (d : ℕ) : Char := Char.ofNat (48 + d)

/-- Numeric value of a decimal digit character. -/
def digitVal (c : Char) : ℕ := c.toNat - 48

/-- Value of a big-endian digit list. -/
def ofDigitsBE (ds : List ℕ) : ℕ := ds.foldl (fun a d => 10 * a + d) 0

/-- Decimal character rendering of a natural number. -/
def natChars (n : ℕ) : List Char := (digitsBE n).map digitChar

/-- Rendering of the scaled integer `m` (the result of rounding
`x·10^dp`) as a fixed-point numeral with `dp` decimal places. -/
def renderFixedInt (dp : ℕ) (m : ℤ) : String :=
  let a : ℕ := m.natAbs
  let body : List Char :=
    natChars (a / 10 ^ dp) ++
      (if dp = 0 then [] else '.' :: (padDigits dp (a % 10 ^ dp)).map digitChar)
  ⟨if m < 0 then '-' :: body else body⟩

/-- Exact model of `x.toFixed(dp)`: round `x` to `dp` decimal places (ties
away from zero) and render sign, integer part, decimal point and the
zero-padded fractional part. -/
def renderFixed (dp : ℕ) (q : ℚ) : String :=
  renderFixedInt dp (jsRoundQ (q * 10 ^ dp))

/-- Longest leading run of digit characters, together with the rest. -/
def takeDigits : List Char → List ℕ × List Char
  | [] => ([], [])
  | c :: cs =>
    if c.isDigit then
      let p := takeDigits cs
      (digitVal c :: p.1, p.2)
    else ([], c :: cs)

/-- Numeric lead of an unsigned decimal string: leading digits, optionally
followed by a decimal point and further digits; everything after is
ignored (as `parseFloat` does). -/
def parseUnsigned (cs : List Char) : Option ℚ :=
  let p := takeDigits cs
  if p.1 = [] then none
  else
    let ipart : ℚ := ofDigitsBE p.1
    match p.2 with
    | '.' :: r2 =>
      let pf := takeDigits r2
      some (ipart + (ofDigitsBE pf.1 : ℚ) / 10 ^ pf.1.length)
    | _ => some ipart

/-- Model of `parseFloat` on the strings this app produces: an optional
minus sign followed by an unsigned decimal numeral; trailing text (the
unit suffix) is ignored. -/
def parseCharsNum (cs : List Char) : Option ℚ :=
  match cs with
  | c :: rest =>
    if c = '-' then (parseUnsigned rest).map (fun v => -v)
    else parseUnsigned (c :: rest)
  | [] => none

/-- Parse the numeric lead of a string. -/
def parseNumLead (s : String) : Option ℚ := parseCharsNum s.data

/-- The head of the character list, if any, is not a digit. -/
def headNotDigit (cs : List Char) : Prop :=
  ∀ c ∈ cs.head?, c.isDigit = false

instance headNotDigitDec (cs : List Char) : Decidable (headNotDigit cs) :=
  match cs with
  | [] => isTrue (by intro c hc; simp at hc)
  | c :: rest =>
    if hd : c.isDigit = false then
      isTrue (by
        intro x hx
        simp only [List.head?_cons, Option.mem_def, Option.some.injEq] at hx
        subst hx
        exact hd)
    else
      isFalse (by
        intro hcontra
        exact hd (hcontra c (by simp)))

/-- Canvas drawing primitive, recording the geometry issued by a renderer
after its initial `clearCanvas`. Stroke/fill colours and line widths are
presentational only and are not recorded. -/
inductive Prim where
  | fillRect (x y rw rh : ℝ)
  | strokeRect (x y rw rh : ℝ)
  | segment (x1 y1 x2 y2 : ℝ)
  | polylineStroke (pts : List (ℝ × ℝ))
  | polygonFill (pts : List (ℝ × ℝ))
  | polygonStroke (pts : List (ℝ × ℝ))
  | textLabel (s : String) (x y : ℝ)
  | textNum (v : ℝ) (dp : ℕ) (suffix : String) (x y : ℝ)
  | arcStroke (cx cy r a1 a2 : ℝ)
  | discFill (cx cy r : ℝ)

/-- A point lies inside the canvas rectangle. -/
def ptIn (w h x y : ℝ) : Prop := 0 ≤ x ∧ x ≤ w ∧ 0 ≤ y ∧ y ≤ h

/-- All coordinates touched by a primitive lie inside the canvas bounds
`[0, w] × [0, h]`. -/
def Prim.inBounds (w h : ℝ) : Prim → Prop
  | .fillRect x y rw rh => ptIn w h x y ∧ ptIn w h (x + rw) (y + rh)
  | .strokeRect x y rw rh => ptIn w h x y ∧ ptIn w h (x + rw) (y + rh)
  | .segment x1 y1 x2 y2 => ptIn w h x1 y1 ∧ ptIn w h x2 y2
  | .polylineStroke pts => ∀ p ∈ pts, ptIn w h p.1 p.2
  | .polygonFill pts => ∀ p ∈ pts, ptIn w h p.1 p.2
  | .polygonStroke pts => ∀ p ∈ pts, ptIn w h p.1 p.2
  | .textLabel _ x y => ptIn w h x y
  | .textNum _ _ _ x y => ptIn w h x y
  | .arcStroke cx cy r _ _ =>
      ptIn w h (cx - r) (cy - r) ∧ ptIn w h (cx + r) (cy + r)
  | .discFill cx cy r =>
      ptIn w h (cx - r) (cy - r) ∧ ptIn w h (cx + r) (cy + r)

/-- Displayed text whose numeric part is a real number: either the em-dash
placeholder or `label ++ v.toFixed(dp) ++ suffix`. -/
inductive RText where
  | dash
  | num (label : String) (v : ℝ) (dp : ℕ) (suffix : String)

/-- Output of a handler with one string output and one canvas. -/
structure TextCanvas where
  text : String
  prims : List Prim

/-- Output of a handler with one real-valued text output and one canvas. -/
structure RTextCanvas where
  text : RText
  prims : List Prim

/-- Output of a handler that only draws. -/
structure CanvasOnly where
  prims : List Prim

/-- Degrees to radians, as in `(phi * Math.PI) / 180`. -/
noncomputable def degToRad (phi : ℚ) : ℝ := (phi : ℝ) * Real.pi / 180

/- ---------------------- Site/Civil ---------------------- -/
/-- Earthwork volume computed by `updateVolume`: average-end-area when the
method selector reads `"avg"`, otherwise the prismoidal formula with the
midpoint area approximated by the average of the ends. -/
def siteVolume (A1 A2 L : ℚ) (method : String) : ℚ :=
  if method = "avg" then (A1 + A2) / 2 * L
  else L / 6 * (A1 + 4 * ((A1 + A2) / 2) + A2)

/-- Renderer `drawSiteVolume`: filled/stroked trapezoid plus two labels. -/
noncomputable def drawSiteVolume (w h : ℝ) (A1 A2 : ℚ) : List Prim :=
  let maxA : ℚ := max (max A1 A2) 1
  let heightScale : ℝ := (h - 20) / (maxA : ℝ)
  let baseY : ℝ := h - 10
  let x0 : ℝ := 20
  let x1 : ℝ := w - 20
  let y0 : ℝ := baseY - (A1 : ℝ) * heightScale
  let y1 : ℝ := baseY - (A2 : ℝ) * heightScale
  [Prim.polygonFill [(x0, baseY), (x0, y0), (x1, y1), (x1, baseY)],
   Prim.polygonStroke [(x0, baseY), (x0, y0), (x1, y1), (x1, baseY)],
   Prim.textLabel ("A1") (x0 - 15) (y0 - 5),
   Prim.textLabel ("A2") (x1 + 5) (y1 - 5)]

/-- Handler `updateVolume`: parse A1, A2, L; require L > 0; display the
volume to two decimals with unit and draw the trapezoid. -/
noncomputable def updateVolume (a1 a2 l : Option ℚ) (method : String)
    (w h : ℝ) : TextCanvas :=
  match a1, a2, l with
  | some A1, some A2, some L =>
    if L ≤ 0 then ⟨"—", []⟩
    else ⟨renderFixed 2 (siteVolume A1 A2 L method) ++ " m³",
          drawSiteVolume w h A1 A2⟩
  | _, _, _ => ⟨"—", []⟩

/-- Rational-method peak runoff `Q = C·I·A·0.00277777778`. -/
def runoffQ (C I A : ℚ) : ℚ := C * I * A * 0.00277777778

/-- Renderer `drawRunoffBar`: proportional bar against a 10 m³/s scale. -/
noncomputable def drawRunoffBar (w h : ℝ) (Q : ℚ) : List Prim :=
  let barWidth : ℝ := min (w - 40) ((Q : ℝ) / 10 * (w - 40))
  [Prim.fillRect 20 (h / 2 - 15) barWidth 30,
   Prim.strokeRect 20 (h / 2 - 15) (w - 40) 30,
   Prim.textNum (Q : ℝ) 2 (" m³/s") 25 (h / 2 + 30)]

/-- Handler `updateRunoff`: parse C, I, A; require all nonnegative. -/
noncomputable def updateRunoff (c i a : Option ℚ) (w h : ℝ) : TextCanvas :=
  match c, i, a with
  | some C, some I, some A =>
    if C < 0 ∨ I < 0 ∨ A < 0 then ⟨"—", []⟩
    else ⟨renderFixed 3 (runoffQ C I A) ++ " m³/s", drawRunoffBar w h (runoffQ C I A)⟩
  | _, _, _ => ⟨"—", []⟩

/- ---------------------- Geotechnical ---------------------- -/
/-- Mohr–Coulomb shear strength `τ = c + σ·tan(φ)` (φ in radians). -/
noncomputable def shearTau (c sigma phi : ℚ) : ℝ :=
  (c : ℝ) + (sigma : ℝ) * Real.tan (degToRad phi)

/-- Renderer `drawShearDiagram`: axes, failure envelope over a fixed
100 kPa stress range, and five-interval tick marks with numeric labels. -/
noncomputable def drawShearDiagram (w h : ℝ) (c : ℚ) (phiRad : ℝ) : List Prim :=
  let axisX0 : ℝ := 30
  let axisY0 : ℝ := h - 30
  let axisX1 : ℝ := w - 30
  let axisY1 : ℝ := 30
  let maxTau : ℝ := (c : ℝ) + 100 * Real.tan phiRad
  let xCoord : ℝ → ℝ := fun sigma => axisX0 + sigma / 100 * (axisX1 - axisX0)
  let yCoord : ℝ → ℝ := fun tau => axisY0 - tau / max maxTau 1 * (axisY0 - axisY1)
  [Prim.segment axisX0 axisY0 axisX1 axisY0,
   Prim.segment axisX0 axisY0 axisX0 axisY1,
   Prim.segment (xCoord 0) (yCoord (c : ℝ)) (xCoord 100)
     (yCoord ((c : ℝ) + 100 * Real.tan phiRad)),
   Prim.textLabel ("σ (kPa)") (axisX1 - 40) (axisY0 + 15),
   Prim.textLabel ("τ (kPa)") (axisX0 - 25) (axisY1 + 10)] ++
  ((List.range 6).map (fun i =>
    let sigmaVal : ℝ := 100 / 5 * (i : ℝ)
    let tauVal : ℝ := maxTau / 5 * (i : ℝ)
    let x := xCoord sigmaVal
    let y := yCoord tauVal
    [Prim.segment x axisY0 x (axisY0 - 5),
     Prim.textNum sigmaVal 0 ("") (x - 10) (axisY0 + 12),
     Prim.segment axisX0 y (axisX0 + 5) y,
     Prim.textNum tauVal 0 ("") (axisX0 - 25) (y + 3)])).flatten

/-- Handler `updateShear`: parse c, σ, φ (no further constraint). -/
noncomputable def updateShear (c sigma phi : Option ℚ) (w h : ℝ) : RTextCanvas :=
  match c, sigma, phi with
  | some C, some S, some P =>
    ⟨RText.num ("") (shearTau C S P) 2 (" kPa"), drawShearDiagram w h C (degToRad P)⟩
  | _, _, _ => ⟨RText.dash, []⟩

/-- Meyerhof bearing-capacity factor `Nq`. -/
noncomputable def bearingNq (phiRad : ℝ) : ℝ :=
  Real.exp (Real.pi * Real.tan phiRad) *
    Real.tan (Real.pi / 4 + phiRad / 2) ^ 2

/-- Bearing-capacity factor `Nc = (Nq − 1)/tan(φ || 1e-6)` with the JS
`||` epsilon guard on the angle. -/
noncomputable def bearingNc (phiRad : ℝ) : ℝ :=
  (bearingNq phiRad - 1) / Real.tan (jsOr phiRad (1 / 1000000))

/-- Bearing-capacity factor `Nγ = 2(Nq + 1)·tan(φ)`. -/
noncomputable def bearingNgamma (phiRad : ℝ) : ℝ :=
  2 * (bearingNq phiRad + 1) * Real.tan phiRad

/-- Cohesion term `c·Nc` of the bearing-capacity sum. -/
noncomputable def bearingTermC (c phi : ℚ) : ℝ :=
  (c : ℝ) * bearingNc (degToRad phi)

/-- Surcharge term `q·Nq` of the bearing-capacity sum. -/
noncomputable def bearingTermQ (q phi : ℚ) : ℝ :=
  (q : ℝ) * bearingNq (degToRad phi)

/-- Self-weight term `0.5·γ·B·Nγ` of the bearing-capacity sum. -/
noncomputable def bearingTermG (gamma B phi : ℚ) : ℝ :=
  0.5 * (gamma : ℝ) * (B : ℝ) * bearingNgamma (degToRad phi)

/-- Ultimate bearing capacity `q_ult = c·Nc + q·Nq + 0.5·γ·B·Nγ`. -/
noncomputable def bearingQult (c q gamma B phi : ℚ) : ℝ :=
  bearingTermC c phi + bearingTermQ q phi + bearingTermG gamma B phi

/-- Renderer `drawBearingBar`: stacked bar of the three capacity terms.
When the total is not positive the function returns right after clearing,
drawing nothing. -/
noncomputable def drawBearingBar (w h termC termQ termGamma : ℝ) : List Prim :=
  let total := termC + termQ + termGamma
  if total ≤ 0 then []
  else
    let barWidth := w / 4
    let hC := termC / total * (h - 20)
    let hQ := termQ / total * (h - 20)
    let hG := termGamma / total * (h - 20)
    [Prim.fillRect 20 (h - hC) barWidth hC,
     Prim.fillRect 20 (h - hC - hQ) barWidth hQ,
     Prim.fillRect 20 (h - hC - hQ - hG) barWidth hG,
     Prim.strokeRect 20 10 barWidth (h - 20),
     Prim.textLabel ("c′N_c") (25 + barWidth) (h - hC / 2),
     Prim.textLabel ("q′N_q") (25 + barWidth) (h - hC - hQ / 2),
     Prim.textLabel ("0.5γ′BN_γ") (25 + barWidth) (h - hC - hQ - hG / 2)]

/-- Handler `updateBearing`: parse c, q, γ, B, φ; require B > 0. -/
noncomputable def updateBearing (c q gamma B phi : Option ℚ) (w h : ℝ) :
    RTextCanvas :=
  match c, q, gamma, B, phi with
  | some C, some Q, some G, some Bv, some P =>
    if Bv ≤ 0 then ⟨RText.dash, []⟩
    else ⟨RText.num ("") (bearingQult C Q G Bv P) 2 (" kPa"),
          drawBearingBar w h (bearingTermC C P) (bearingTermQ Q P)
            (bearingTermG G Bv P)⟩
  | _, _, _, _, _ => ⟨RText.dash, []⟩

/- ---------------------- Structural ---------------------- -/
/-- Maximum bending moment `M = w·L²/8` of the simply supported beam. -/
def beamM (wq L : ℚ) : ℚ := wq * L * L / 8

/-- Displayed "stress ratio" `M·1000/I` (units acknowledged as not
physically meaningful in a source comment). -/
def beamStressRatio (wq L I : ℚ) : ℚ := beamM wq L * 1000 / I

/-- Maximum deflection `δ = 5wL⁴/(384EI)` after kN/m→N/m and GPa→Pa
conversions. -/
def beamDeflect (wq L E I : ℚ) : ℚ :=
  5 * (wq * 1000) * L ^ 4 / (384 * (E * 10 ^ 9) * I)

/-- Deflection of the uniformly loaded simply supported beam at abscissa
`x`, as sampled by `drawBeamDeflection`. -/
def beamCurveY (wN L EPa I x : ℚ) : ℚ :=
  wN * x * (L ^ 3 - 2 * L * x ^ 2 + x ^ 3) / (24 * EPa * I)

/-- Renderer `drawBeamDeflection`: baseline plus the sampled deflection
curve, y-scaled so the sampled peak fits a quarter of the canvas height. -/
noncomputable def drawBeamDeflection (w h : ℝ) (wN L EPa I : ℚ) : List Prim :=
  let ys : List ℚ := (List.range 51).map (fun i => beamCurveY wN L EPa I (L / 50 * i))
  let yMax : ℚ := ys.foldl (fun m y => max m |y|) 0
  let scaleX : ℝ := (w - 20) / (L : ℝ)
  let scaleY : ℝ := if 0 < yMax then h / 4 / (yMax : ℝ) else 1
  [Prim.segment 10 (h / 2) (w - 10) (h / 2),
   Prim.polylineStroke ((List.range 51).map (fun i =>
     let x : ℚ := L / 50 * i
     (10 + (x : ℝ) * scaleX,
      h / 2 - (beamCurveY wN L EPa I x : ℝ) * scaleY)))]

/-- Handler `updateBeam`: parse w, L, E, I; require all positive; display
the stress ratio and maximum deflection and draw the deflection curve. -/
noncomputable def updateBeam (bw bl bE bI : Option ℚ) (w h : ℝ) :
    TextCanvas × String :=
  match bw, bl, bE, bI with
  | some wq, some L, some E, some I =>
    if wq ≤ 0 ∨ L ≤ 0 ∨ E ≤ 0 ∨ I ≤ 0 then (⟨"—", []⟩, "—")
    else
      (⟨("M/I: ") ++ renderFixed 2 (beamStressRatio wq L I) ++ (" 1/m³"),
        drawBeamDeflection w h (wq * 1000) L (E * 10 ^ 9) I⟩,
       ("δ_max: ") ++ renderFixed 4 (beamDeflect wq L E I) ++ (" m"))
  | _, _, _, _ => (⟨"—", []⟩, "—")

/-- Euler buckling load in kN: `Pcr = π²·E·I/(K·L)²` with E in Pa, then
divided by 1000. -/
noncomputable def bucklingPcrkN (E I L K : ℚ) : ℝ :=
  Real.pi ^ 2 * ((E : ℝ) * 10 ^ 9) * (I : ℝ) / ((K : ℝ) * (L : ℝ)) ^ 2 / 1000

/-- Load-arrow height of `drawBucklingColumn`: proportional to the load,
saturating at 100 px. -/
noncomputable def bucklingArrowHeight (PcrkN : ℝ) : ℝ :=
  min (PcrkN / 1000 * 20) 100

/-- Renderer `drawBucklingColumn`: column rectangle plus the scaled load
arrow and its label. The arrow runs from the column top (y = 20) up to
`arrowY = 20 − arrowHeight − 10`. -/
noncomputable def drawBucklingColumn (w h PcrkN : ℝ) : List Prim :=
  let colX := w / 2 - 20
  let colYTop : ℝ := 20
  let colYBot := h - 40
  let arrowHeight := bucklingArrowHeight PcrkN
  let arrowY := colYTop - arrowHeight - 10
  let arrowX := colX + 20
  [Prim.fillRect colX colYTop 40 (colYBot - colYTop),
   Prim.strokeRect colX colYTop 40 (colYBot - colYTop),
   Prim.segment arrowX colYTop arrowX arrowY,
   Prim.polylineStroke [(arrowX - 5, arrowY + 10), (arrowX, arrowY),
     (arrowX + 5, arrowY + 10)],
   Prim.textNum PcrkN 1 (" kN") (arrowX + 10) (arrowY + 20)]

/-- Handler `updateBuckling`: parse E, I, L, K; require all positive. -/
noncomputable def updateBuckling (e i l k : Option ℚ) (w h : ℝ) : RTextCanvas :=
  match e, i, l, k with
  | some E, some I, some L, some K =>
    if E ≤ 0 ∨ I ≤ 0 ∨ L ≤ 0 ∨ K ≤ 0 then ⟨RText.dash, []⟩
    else ⟨RText.num ("") (bucklingPcrkN E I L K) 2 (" kN"),
          drawBucklingColumn w h (bucklingPcrkN E I L K)⟩
  | _, _, _, _ => ⟨RText.dash, []⟩

/- ---------------------- Transportation ---------------------- -/
/-- Renderer `drawFundamentalDiagram`: axes plus the sampled Greenshields
curve `q = vf·k·(1 − k/kj)` over `k ∈ [0, kj]`. -/
noncomputable def drawFundamentalDiagram (w h : ℝ) (vf kj : ℚ) : List Prim :=
  let x0 : ℝ := 30
  let y0 : ℝ := h - 30
  let x1 : ℝ := w - 30
  let y1 : ℝ := 30
  let maxQ : ℚ := vf * kj / 4
  [Prim.segment x0 y0 x1 y0,
   Prim.segment x0 y0 x0 y1,
   Prim.polylineStroke ((List.range 51).map (fun i =>
     let k : ℚ := kj / 50 * i
     let q : ℚ := vf * k * (1 - k / kj)
     (x0 + ((k / kj : ℚ) : ℝ) * (x1 - x0),
      y0 - ((q / maxQ : ℚ) : ℝ) * (y0 - y1)))),
   Prim.textLabel ("Density (k)") (x1 - 50) (y0 + 15),
   Prim.textLabel ("Flow (q)") (x0 - 25) y1]

/-- Handler `updateFlow`: parse vf, kj; require both positive; this
calculator has no text output, only the canvas. -/
noncomputable def updateFlow (vfi kji : Option ℚ) (w h : ℝ) : CanvasOnly :=
  match vfi, kji with
  | some vf, some kj =>
    if vf ≤ 0 ∨ kj ≤ 0 then ⟨[]⟩
    else ⟨drawFundamentalDiagram w h vf kj⟩
  | _, _ => ⟨[]⟩

/-- Braking-term denominator `19.6·(f + G)` of the stopping sight
distance. -/
def ssdDenom (f G : ℚ) : ℚ := 19.6 * (f + G)

/-- AASHTO stopping sight distance
`SSD = 0.278·t·v + (0.278·v)²/(19.6(f+G))`. -/
def ssdDistance (v tr f G : ℚ) : ℚ :=
  0.278 * tr * v + (0.278 * v) * (0.278 * v) / ssdDenom f G

/-- Renderer `drawStoppingDistance`: road strip, proportional distance bar
against a 200 m reference, car rectangle, arrow head and label. -/
noncomputable def drawStoppingDistance (w h : ℝ) (ds : ℚ) : List Prim :=
  let trackLength := w - 40
  let carX : ℝ := 20
  let barLength : ℝ := min trackLength ((ds : ℝ) / 200 * trackLength)
  let arrowX := carX + barLength
  [Prim.fillRect 20 (h / 2 - 10) trackLength 20,
   Prim.fillRect carX (h / 2 - 10) barLength 20,
   Prim.fillRect (carX - 10) (h / 2 - 15) 20 15,
   Prim.polygonFill [(arrowX, h / 2), (arrowX - 8, h / 2 - 5),
     (arrowX - 8, h / 2 + 5)],
   Prim.textNum (ds : ℝ) 1 (" m") 20 (h / 2 + 35)]

/-- Handler `updateSSD`: parse v, tr, f, G; require v > 0 and tr > 0;
then a second guard rejects a non-positive braking denominator with the
message `Invalid parameters`. -/
noncomputable def updateSSD (vi tri fi Gi : Option ℚ) (w h : ℝ) : TextCanvas :=
  match vi, tri, fi, Gi with
  | some v, some tr, some f, some G =>
    if v ≤ 0 ∨ tr ≤ 0 then ⟨"—", []⟩
    else if ssdDenom f G ≤ 0 then ⟨"Invalid parameters", []⟩
    else ⟨renderFixed 1 (ssdDistance v tr f G) ++ " m",
          drawStoppingDistance w h (ssdDistance v tr f G)⟩
  | _, _, _, _ => ⟨"—", []⟩

/- ---------------------- Environmental ---------------------- -/
/-- Streeter–Phelps DO deficit
`D(t) = (k1·La)/(k2−k1)·(e^(−k1·t) − e^(−k2·t)) + Da·e^(−k2·t)`. -/
noncomputable def doDeficit (k1 k2 La Da t : ℚ) : ℝ :=
  ((k1 * La : ℚ) : ℝ) / ((k2 - k1 : ℚ) : ℝ) *
      (Real.exp (-(k1 : ℝ) * (t : ℝ)) - Real.exp (-(k2 : ℝ) * (t : ℝ))) +
    (Da : ℝ) * Real.exp (-(k2 : ℝ) * (t : ℝ))

/-- Renderer `drawDOSag`: axes plus the sampled deficit curve over ten
days, y-scaled by the sampled maximum (floored at 1e-6). -/
noncomputable def drawDOSag (w h : ℝ) (k1 k2 La Da : ℚ) : List Prim :=
  let x0 : ℝ := 30
  let y0 : ℝ := h - 30
  let x1 : ℝ := w - 30
  let y1 : ℝ := 30
  let ds : List ℝ := (List.range 51).map (fun i => doDeficit k1 k2 La Da (10 / 50 * i))
  let maxD : ℝ := ds.foldl (fun m D => max m D) 0
  [Prim.segment x0 y0 x1 y0,
   Prim.segment x0 y0 x0 y1,
   Prim.polylineStroke ((List.range 51).map (fun i =>
     (x0 + (((10 : ℚ) / 50 * i / 10 : ℚ) : ℝ) * (x1 - x0),
      y0 - doDeficit k1 k2 La Da (10 / 50 * i) / max maxD (1 / 1000000) * (y0 - y1)))),
   Prim.textLabel ("Time (days)") (x1 - 50) (y0 + 15),
   Prim.textLabel ("DO deficit") (x0 - 25) y1]

/-- Handler `updateDO`: parse k1, k2, La, Da; require all nonnegative and
`k1 ≠ k2`; on failure the canvas is cleared and nothing is drawn (so the
`k2 − k1` division of the formula is never evaluated). This calculator has
no text output. -/
noncomputable def updateDO (k1i k2i Lai Dai : Option ℚ) (w h : ℝ) : CanvasOnly :=
  match k1i, k2i, Lai, Dai with
  | some k1, some k2, some La, some Da =>
    if k1 < 0 ∨ k2 < 0 ∨ La < 0 ∨ Da < 0 ∨ k1 = k2 then ⟨[]⟩
    else ⟨drawDOSag w h k1 k2 La Da⟩
  | _, _, _, _ => ⟨[]⟩

/- ---------------------- Hydraulics ---------------------- -/
/-- Flow area `A = b·d` of the rectangular channel. -/
def manningA (b d : ℚ) : ℚ := b * d

/-- Wetted perimeter `P = b + 2d`. -/
def manningP (b d : ℚ) : ℚ := b + 2 * d

/-- Hydraulic radius `Rh = A/P`. -/
def manningRh (b d : ℚ) : ℚ := manningA b d / manningP b d

/-- Manning discharge `Q = (1/n)·A·Rh^(2/3)·√S`. -/
noncomputable def manningQ (b d S n : ℚ) : ℝ :=
  1 / (n : ℝ) * (manningA b d : ℝ) *
    ((manningRh b d : ℝ)) ^ ((2 : ℝ) / 3) * Real.sqrt (S : ℝ)

/-- Renderer `drawManningChannel`: channel rectangle, water fill, and a
flow arrow whose length saturates at 80% of the channel width. -/
noncomputable def drawManningChannel (w h : ℝ) (b d : ℚ) (Q : ℝ) : List Prim :=
  let maxDim : ℚ := max b d
  let scale : ℝ := (h - 40) / ((maxDim : ℝ) * 1.5)
  let width := (b : ℝ) * scale
  let depth := (d : ℝ) * scale
  let startX := (w - width) / 2
  let waterY := h - 20
  let arrowLength := min (width * 0.8) (Q / 10 * (width * 0.8))
  let arrowY := waterY - depth / 2
  let tipX := startX + width * 0.1 + arrowLength
  [Prim.strokeRect startX (waterY - depth) width depth,
   Prim.fillRect startX (waterY - depth) width depth,
   Prim.strokeRect startX (waterY - depth) width depth,
   Prim.segment (startX + width * 0.1) arrowY tipX arrowY,
   Prim.polygonFill [(tipX, arrowY), (tipX - 5, arrowY - 5), (tipX - 5, arrowY + 5)],
   Prim.textNum Q 2 (" m³/s") (startX + 5) (waterY - depth - 5)]

/-- Handler `updateManning`: parse b, d, S, n; require all positive. -/
noncomputable def updateManning (bi di Si ni : Option ℚ) (w h : ℝ) : RTextCanvas :=
  match bi, di, Si, ni with
  | some b, some d, some S, some n =>
    if b ≤ 0 ∨ d ≤ 0 ∨ S ≤ 0 ∨ n ≤ 0 then ⟨RText.dash, []⟩
    else ⟨RText.num ("") (manningQ b d S n) 3 (" m³/s"),
          drawManningChannel w h b d (manningQ b d S n)⟩
  | _, _, _, _ => ⟨RText.dash, []⟩

/- ---------------------- Construction/PM ---------------------- -/
/-- Schedule performance index `SPI = EV/PV`. -/
def evmSPI (EV PV : ℚ) : ℚ := EV / PV

/-- Cost performance index `CPI = EV/AC`. -/
def evmCPI (EV AC : ℚ) : ℚ := EV / AC

/-- Estimate at completion `EAC = BAC/CPI`. -/
def evmEAC (BAC CPI : ℚ) : ℚ := BAC / CPI

/-- One semicircular gauge of `drawEVMGauges`: background arc, value arc
and needle (the ratio clamped to [0, 2] mapped onto a half turn), hub and
labels. -/
noncomputable def drawEVMGauge (cy radius cx : ℝ) (value : ℚ) (lab : String) :
    List Prim :=
  let endAngle := Real.pi + min ((value : ℝ) / 2) 1 * Real.pi
  [Prim.arcStroke cx cy radius Real.pi (2 * Real.pi),
   Prim.arcStroke cx cy radius Real.pi endAngle,
   Prim.segment cx cy (cx + radius * Real.cos endAngle)
     (cy + radius * Real.sin endAngle),
   Prim.discFill cx cy 4,
   Prim.textLabel lab cx (cy + 15),
   Prim.textNum (value : ℝ) 2 ("") cx (cy + 30)]

/-- Renderer `drawEVMGauges`: SPI and CPI gauges side by side. -/
noncomputable def drawEVMGauges (w h : ℝ) (SPI CPI : ℚ) : List Prim :=
  let cy := h - 10
  let radius := min (w / 4) (h - 20)
  drawEVMGauge cy radius (w / 3) SPI ("SPI") ++
    drawEVMGauge cy radius (w / 3 * 2) CPI ("CPI")

/-- Handler `updateEVM`: parse EV, PV, AC, BAC; require all positive;
display the three labeled indices and draw the gauges. -/
noncomputable def updateEVM (evi pvi aci baci : Option ℚ) (w h : ℝ) :
    TextCanvas × String × String :=
  match evi, pvi, aci, baci with
  | some EV, some PV, some AC, some BAC =>
    if EV ≤ 0 ∨ PV ≤ 0 ∨ AC ≤ 0 ∨ BAC ≤ 0 then
      (⟨"SPI: —", []⟩, "CPI: —", "EAC: —")
    else
      (⟨("SPI: ") ++ renderFixed 2 (evmSPI EV PV),
        drawEVMGauges w h (evmSPI EV PV) (evmCPI EV AC)⟩,
       ("CPI: ") ++ renderFixed 2 (evmCPI EV AC),
       ("EAC: ") ++ renderFixed 2 (evmEAC BAC (evmCPI EV AC)))
  | _, _, _, _ => (⟨"SPI: —", []⟩, "CPI: —", "EAC: —")

/- ---------------------- Site controller state machine ---------------------- -/
/-- Current values of the site calculator's bound input fields. -/
structure SiteFields where
  a1 : Option ℚ
  a2 : Option ℚ
  l : Option ℚ
  method : String

/-- One user edit to a bound field of the site calculator. -/
inductive SiteEvent where
  | setA1 (v : Option ℚ)
  | setA2 (v : Option ℚ)
  | setL (v : Option ℚ)
  | setMethod (m : String)

/-- Effect of an edit on the field values. -/
def applyEvent (f : SiteFields) : SiteEvent → SiteFields
  | .setA1 v => { f with a1 := v }
  | .setA2 v => { f with a2 := v }
  | .setL v => { f with l := v }
  | .setMethod m => { f with method := m }

/-- Controller state: the fields plus whatever the last render displayed. -/
structure SiteCtrl where
  fields : SiteFields
  shown : TextCanvas

/-- The output `updateVolume` produces from a set of field values. -/
noncomputable def updVolOf (w h : ℝ) (f : SiteFields) : TextCanvas :=
  updateVolume f.a1 f.a2 f.l f.method w h

/-- One input event: the field is updated, then the handler re-runs on the
current field values (`el.addEventListener('input', updateVolume)`). -/
noncomputable def stepSite (w h : ℝ) (s : SiteCtrl) (e : SiteEvent) : SiteCtrl :=
  let f := applyEvent s.fields e
  ⟨f, updVolOf w h f⟩

/-- A whole edit history processed in order. -/
noncomputable def runSite (w h : ℝ) (s : SiteCtrl) (es : List SiteEvent) : SiteCtrl :=
  es.foldl (stepSite w h) s

/-- The field fails a strict-positivity requirement: it did not parse, or
its value is ≤ 0. -/
def failsPos (o : Option ℚ) : Prop := ∀ x : ℚ, o = some x → x ≤ 0

/-- The field fails a nonnegativity requirement: it did not parse, or its
value is < 0. -/
def failsNonneg (o : Option ℚ) : Prop := ∀ x : ℚ, o = some x → x < 0

theorem qfloor_eq_floor (x : ℚ) : qfloor x = ⌊x⌋ := Rat.floor_def.symm

theorem jsRoundQ_eq (x : ℚ) :
    jsRoundQ x = if x < 0 then -round (-x) else round x := by
  rw [jsRoundQ, qfloor_eq_floor, qfloor_eq_floor, round_eq, round_eq]

theorem jsRoundQ_eq_of_nonneg (x : ℚ) (m : ℤ) (hx : ¬x < 0)
    (h1 : (m : ℚ) ≤ x + 1 / 2) (h2 : x + 1 / 2 < m + 1) : jsRoundQ x = m := by
  rw [jsRoundQ, if_neg hx, qfloor_eq_floor]
  exact Int.floor_eq_iff.mpr ⟨h1, h2⟩

theorem jsRoundQ_eq_of_neg (x : ℚ) (m : ℤ) (hx : x < 0)
    (h1 : ((-m : ℤ) : ℚ) ≤ -x + 1 / 2) (h2 : -x + 1 / 2 < (-m : ℤ) + 1) :
    jsRoundQ x = m := by
  rw [jsRoundQ, if_pos hx, qfloor_eq_floor, Int.floor_eq_iff.mpr ⟨h1, h2⟩]
  omega

theorem toDigitsFuel_sound (fuel : ℕ) :
    ∀ n : ℕ, n ≤ fuel → Nat.ofDigits 10 (toDigitsFuel fuel n) = n := by
  induction fuel with
  | zero => intro n hn; interval_cases n; simp [toDigitsFuel]
  | succ fuel ih =>
    intro n hn
    by_cases h0 : n = 0
    · simp [toDigitsFuel, h0]
    · have hdiv : n / 10 ≤ fuel := by omega
      simp only [toDigitsFuel, h0, if_false, Nat.ofDigits_cons, ih _ hdiv]
      omega

theorem natDigitList_sound (n : ℕ) : Nat.ofDigits 10 (natDigitList n) = n :=
  toDigitsFuel_sound n n le_rfl

theorem toDigitsFuel_lt_ten (fuel : ℕ) :
    ∀ n : ℕ, ∀ d ∈ toDigitsFuel fuel n, d < 10 := by
  induction fuel with
  | zero => intro n d hd; simp [toDigitsFuel] at hd
  | succ fuel ih =>
    intro n d hd
    by_cases h0 : n = 0
    · simp [toDigitsFuel, h0] at hd
    · simp only [toDigitsFuel, h0, if_false, List.mem_cons] at hd
      rcases hd with h | h
      · subst h; omega
      · exact ih _ _ h

theorem digitChar_isDigit {d : ℕ} (hd : d < 10) :
    (digitChar d).isDigit = true := by
  interval_cases d <;> decide

theorem digitVal_digitChar {d : ℕ} (hd : d < 10) :
    digitVal (digitChar d) = d := by
  interval_cases d <;> decide

theorem takeDigits_append (ds : List ℕ) (rest : List Char)
    (hds : ∀ d ∈ ds, d < 10) (hrest : headNotDigit rest) :
    takeDigits (ds.map digitChar ++ rest) = (ds, rest) := by
  induction ds with
  | nil =>
    cases rest with
    | nil => rfl
    | cons c cs =>
      have : c.isDigit = false := hrest c (by simp)
      simp [takeDigits, this]
  | cons d ds ih =>
    have hd : d < 10 := hds d (by simp)
    have hrec := ih (fun x hx => hds x (by simp [hx]))
    simp only [List.map_cons, List.cons_append, takeDigits,
      digitChar_isDigit hd, if_true, List.append_eq, hrec,
      digitVal_digitChar hd]

theorem ofDigitsBE_concat (xs : List ℕ) (d : ℕ) :
    ofDigitsBE (xs ++ [d]) = 10 * ofDigitsBE xs + d := by
  simp [ofDigitsBE, List.foldl_append]

theorem ofDigitsBE_reverse (l : List ℕ) :
    ofDigitsBE l.reverse = Nat.ofDigits 10 l := by
  induction l with
  | nil => simp [ofDigitsBE, Nat.ofDigits]
  | cons d l ih =>
    rw [List.reverse_cons, ofDigitsBE_concat, ih, Nat.ofDigits_cons]
    omega

theorem ofDigitsBE_replicate_zero (z : ℕ) (ds : List ℕ) :
    ofDigitsBE (List.replicate z 0 ++ ds) = ofDigitsBE ds := by
  induction z with
  | zero => simp
  | succ z ih =>
    simpa [List.replicate_succ, ofDigitsBE] using ih

theorem ofDigitsBE_digitsBE (n : ℕ) : ofDigitsBE (digitsBE n) = n := by
  by_cases h0 : n = 0
  · simp [digitsBE, h0, ofDigitsBE]
  · rw [digitsBE, if_neg h0, ofDigitsBE_reverse, natDigitList_sound]

theorem ofDigitsBE_padDigits (dp f : ℕ) :
    ofDigitsBE (padDigits dp f) = f := by
  rw [padDigits, ofDigitsBE_replicate_zero, ofDigitsBE_reverse,
    natDigitList_sound]

theorem toDigitsFuel_length (fuel : ℕ) :
    ∀ n k : ℕ, n ≤ fuel → n < 10 ^ k → (toDigitsFuel fuel n).length ≤ k := by
  induction fuel with
  | zero => intro n k _ _; simp [toDigitsFuel]
  | succ fuel ih =>
    intro n k hn hk
    by_cases h0 : n = 0
    · simp [toDigitsFuel, h0]
    · have hk0 : k ≠ 0 := by
        rintro rfl
        simp only [pow_zero] at hk
        omega
      obtain ⟨k', rfl⟩ : ∃ k', k = k' + 1 := ⟨k - 1, by omega⟩
      have hdivle : n / 10 ≤ fuel := by omega
      have hdivlt : n / 10 < 10 ^ k' := by
        rw [pow_succ] at hk
        omega
      simp only [toDigitsFuel, h0, if_false, List.length_cons]
      exact Nat.succ_le_succ (ih _ _ hdivle hdivlt)

theorem padDigits_length {dp f : ℕ} (hf : f < 10 ^ dp) :
    (padDigits dp f).length = dp := by
  have hlen : (natDigitList f).length ≤ dp :=
    toDigitsFuel_length f f dp le_rfl hf
  simp [padDigits, List.length_append, List.length_replicate]
  omega

theorem padDigits_lt_ten (dp f : ℕ) : ∀ d ∈ padDigits dp f, d < 10 := by
  intro d hd
  simp only [padDigits, List.mem_append, List.mem_replicate,
    List.mem_reverse] at hd
  rcases hd with ⟨_, rfl⟩ | h
  · omega
  · exact toDigitsFuel_lt_ten f f d h

theorem digitsBE_lt_ten (n : ℕ) : ∀ d ∈ digitsBE n, d < 10 := by
  intro d hd
  by_cases h0 : n = 0
  · simp [digitsBE, h0] at hd
    omega
  · simp only [digitsBE, if_neg h0, List.mem_reverse] at hd
    exact toDigitsFuel_lt_ten n n d hd

theorem digitsBE_ne_nil (n : ℕ) : digitsBE n ≠ [] := by
  by_cases h0 : n = 0
  · simp [digitsBE, h0]
  · have h1 : 1 ≤ n := by omega
    simp only [digitsBE, if_neg h0, ne_eq, List.reverse_eq_nil_iff]
    obtain ⟨fuel, hf⟩ : ∃ fuel, n = fuel + 1 := ⟨n - 1, by omega⟩
    rw [natDigitList, hf]
    simp [toDigitsFuel]

theorem digitChar_ne_minus {d : ℕ} (hd : d < 10) : digitChar d ≠ '-' := by
  interval_cases d <;> decide

theorem parseUnsigned_fixedBody (dp : ℕ) (hdp : 0 < dp) (a : ℕ)
    (rest : List Char) (hrest : headNotDigit rest) :
    parseUnsigned
      ((natChars (a / 10 ^ dp) ++
        '.' :: (padDigits dp (a % 10 ^ dp)).map digitChar) ++ rest)
      = some ((a : ℚ) / 10 ^ dp) := by
  set ip := a / 10 ^ dp with hip
  set fp := a % 10 ^ dp with hfp
  have hfp_lt : fp < 10 ^ dp := Nat.mod_lt _ (by positivity)
  have hassoc :
      (natChars ip ++ '.' :: (padDigits dp fp).map digitChar) ++ rest
        = (digitsBE ip).map digitChar ++
            ('.' :: ((padDigits dp fp).map digitChar ++ rest)) := by
    simp [natChars, List.append_assoc]
  have hdots : headNotDigit ('.' :: ((padDigits dp fp).map digitChar ++ rest)) := by
    intro c hc
    simp only [List.head?_cons, Option.mem_def, Option.some.injEq] at hc
    subst hc
    decide
  have htake1 := takeDigits_append (digitsBE ip)
    ('.' :: ((padDigits dp fp).map digitChar ++ rest)) (digitsBE_lt_ten ip) hdots
  have htake2 := takeDigits_append (padDigits dp fp) rest
    (padDigits_lt_ten dp fp) hrest
  rw [hassoc, parseUnsigned]
  simp only [htake1, htake2, digitsBE_ne_nil ip, if_neg, ofDigitsBE_digitsBE,
    ofDigitsBE_padDigits, padDigits_length hfp_lt]
  have hsum : 10 ^ dp * ip + fp = a := Nat.div_add_mod a (10 ^ dp)
  have h10 : ((10 : ℚ) ^ dp) ≠ 0 := by positivity
  have : (a : ℚ) = 10 ^ dp * ip + fp := by exact_mod_cast hsum.symm
  rw [this]
  field_simp
  ring

theorem parseNumLead_renderFixed (dp : ℕ) (hdp : 0 < dp) (q : ℚ)
    (suffix : String) (hs : headNotDigit suffix.data) :
    parseNumLead (renderFixed dp q ++ suffix)
      = some ((jsRoundQ (q * 10 ^ dp) : ℚ) / 10 ^ dp) := by
  obtain ⟨sd⟩ := suffix
  set m : ℤ := jsRoundQ (q * 10 ^ dp) with hm
  set a : ℕ := m.natAbs with ha
  have hbody :
      renderFixed dp q =
        ⟨if m < 0 then
            '-' :: (natChars (a / 10 ^ dp) ++
              '.' :: (padDigits dp (a % 10 ^ dp)).map digitChar)
          else
            natChars (a / 10 ^ dp) ++
              '.' :: (padDigits dp (a % 10 ^ dp)).map digitChar⟩ := by
    simp only [renderFixed, renderFixedInt, ← hm, ← ha]
    rw [if_neg (Nat.pos_iff_ne_zero.mp hdp)]
  by_cases hneg : m < 0
  · have hcast : ((a : ℚ)) = -(m : ℚ) := by
      have h1 : (a : ℤ) = -m := by
        rw [ha]
        omega
      exact_mod_cast h1
    rw [hbody]
    rw [if_pos hneg]
    show parseCharsNum (('-' ::
      (natChars (a / 10 ^ dp) ++
        '.' :: (padDigits dp (a % 10 ^ dp)).map digitChar)) ++ sd) = _
    rw [List.cons_append, parseCharsNum, if_pos rfl,
      parseUnsigned_fixedBody dp hdp a sd hs]
    simp only [Option.map_some', Option.some.injEq]
    rw [hcast]
    ring
  · have hcast : ((a : ℚ)) = (m : ℚ) := by
      have h1 : (a : ℤ) = m := by
        rw [ha]
        omega
      exact_mod_cast h1
    rw [hbody]
    rw [if_neg hneg]
    obtain ⟨d, ds, hds⟩ :
        ∃ d ds, digitsBE (a / 10 ^ dp) = d :: ds := by
      cases hcase : digitsBE (a / 10 ^ dp) with
      | nil => exact absurd hcase (digitsBE_ne_nil _)
      | cons d ds => exact ⟨d, ds, rfl⟩
    have hd10 : d < 10 := digitsBE_lt_ten _ d (by rw [hds]; simp)
    show parseCharsNum ((natChars (a / 10 ^ dp) ++
        '.' :: (padDigits dp (a % 10 ^ dp)).map digitChar) ++ sd) = _
    rw [show (natChars (a / 10 ^ dp) ++
        '.' :: (padDigits dp (a % 10 ^ dp)).map digitChar) ++ sd
      = digitChar d :: ((ds.map digitChar ++
          '.' :: (padDigits dp (a % 10 ^ dp)).map digitChar) ++ sd) by
        simp [natChars, hds, List.append_assoc]]
    rw [parseCharsNum, if_neg (digitChar_ne_minus hd10)]
    rw [show digitChar d :: ((ds.map digitChar ++
          '.' :: (padDigits dp (a % 10 ^ dp)).map digitChar) ++ sd)
      = (natChars (a / 10 ^ dp) ++
          '.' :: (padDigits dp (a % 10 ^ dp)).map digitChar) ++ sd by
        simp [natChars, hds, List.append_assoc]]
    rw [parseUnsigned_fixedBody dp hdp a sd hs, hcast]

theorem jsRoundQ_close (x : ℚ) : |(jsRoundQ x : ℚ) - x| ≤ 1 / 2 := by
  rw [jsRoundQ_eq]
  by_cases hx : x < 0
  · rw [if_pos hx]
    have : ((-round (-x) : ℤ) : ℚ) - x = -((round (-x) : ℚ) - (-x)) := by
      push_cast
      ring
    rw [this, abs_neg, abs_sub_comm]
    exact abs_sub_round (-x)
  · rw [if_neg hx]
    rw [abs_sub_comm]
    exact abs_sub_round x

theorem renderRoundTrip (dp : ℕ) (hdp : 0 < dp) (q : ℚ)
    (suffix : String) (hs : headNotDigit suffix.data) :
    ∃ v : ℚ, parseNumLead (renderFixed dp q ++ suffix) = some v ∧
      |v - q| ≤ 1 / (2 * 10 ^ dp) := by
  refine ⟨_, parseNumLead_renderFixed dp hdp q suffix hs, ?_⟩
  have h := jsRoundQ_close (q * 10 ^ dp)
  have h10 : (0 : ℚ) < 10 ^ dp := by positivity
  have heq : (jsRoundQ (q * 10 ^ dp) : ℚ) / 10 ^ dp - q
      = ((jsRoundQ (q * 10 ^ dp) : ℚ) - q * 10 ^ dp) / 10 ^ dp := by
    field_simp
    ring
  rw [heq, abs_div, abs_of_pos h10, div_le_iff₀ h10]
  calc |(jsRoundQ (q * 10 ^ dp) : ℚ) - q * 10 ^ dp| ≤ 1 / 2 := h
    _ = 1 / (2 * 10 ^ dp) * 10 ^ dp := by field_simp

theorem runSite_shown (w h : ℝ) (s : SiteCtrl) (es : List SiteEvent)
    (hes : es ≠ []) :
    (runSite w h s es).shown = updVolOf w h (runSite w h s es).fields := by
  obtain ⟨es', e, rfl⟩ : ∃ es' e, es = es' ++ [e] := by
    rcases List.eq_nil_or_concat es with h | ⟨es', e, h⟩
    · exact absurd h hes
    · exact ⟨es', e, by rw [h, List.concat_eq_append]⟩
  rw [runSite, List.foldl_append]
  rfl

theorem renderFixedInt_length_pos (dp : ℕ) (m : ℤ) :
    0 < (renderFixedInt dp m).length := by
  have hne : natChars (m.natAbs / 10 ^ dp) ≠ [] := by
    rw [natChars]
    simp only [ne_eq, List.map_eq_nil_iff]
    exact digitsBE_ne_nil _
  have hpos := List.length_pos.mpr hne
  have hmk : ∀ l : List Char, (String.mk l).length = l.length := fun _ => rfl
  rw [renderFixedInt]
  simp only [hmk]
  split_ifs <;> simp_all [List.length_append]

theorem renderFixed_append_ne (dp : ℕ) (q : ℚ) (suffix : String)
    (hs : 0 < suffix.length) : renderFixed dp q ++ suffix ≠ "—" := by
  intro hcontra
  have hlen := congrArg String.length hcontra
  rw [String.length_append] at hlen
  have h1 : 0 < (renderFixed dp q).length := renderFixedInt_length_pos _ _
  have : ("—" : String).length = 1 := by decide
  omega

theorem siteVolume_eq_avg (A1 A2 L : ℚ) (m : String) :
    siteVolume A1 A2 L m = (A1 + A2) / 2 * L := by
  rw [siteVolume]
  split_ifs
  · rfl
  · ring

/-- C9: for every input of the site earthwork calculator the prismoidal
method and the average-end-area method produce the same output, because
with the midpoint area taken as the average of the end areas the formula
`L/6·(A1 + 4·Am + A2)` collapses to `(A1+A2)/2·L`; the method selector
never changes the result. -/
theorem C9_prismoidal_eq_avg (a1 a2 l : Option ℚ) (m1 m2 : String)
    (w h : ℝ) : updateVolume a1 a2 l m1 w h = updateVolume a1 a2 l m2 w h := by
  cases a1 <;> cases a2 <;> cases l <;>
    simp [updateVolume, siteVolume_eq_avg]

/-- C10: the site earthwork calculator's validity check only requires the
three fields to parse and L > 0; negative areas are accepted as
computable, and A1 = −10, A2 = −20, L = 5 displays the negative volume
"-75.00 m³" rather than the placeholder. -/
theorem C10_negative_area_accepted :
    (∀ (a1 a2 l : Option ℚ) (m : String) (w h : ℝ),
      (updateVolume a1 a2 l m w h).text = "—" ↔
        (a1 = none ∨ a2 = none ∨ l = none ∨ ∃ L, l = some L ∧ L ≤ 0)) ∧
    (∀ w h : ℝ,
      (updateVolume (some (-10)) (some (-20)) (some 5) ("avg") w h).text
        = "-75.00 m³") := by
  constructor
  · intro a1 a2 l m w h
    constructor
    · intro htext
      match a1, a2, l with
      | none, _, _ => exact Or.inl rfl
      | some A1, none, _ => exact Or.inr (Or.inl rfl)
      | some A1, some A2, none => exact Or.inr (Or.inr (Or.inl rfl))
      | some A1, some A2, some L =>
        refine Or.inr (Or.inr (Or.inr ⟨L, rfl, ?_⟩))
        by_contra hL
        rw [updateVolume] at htext
        rw [if_neg hL] at htext
        exact renderFixed_append_ne 2 _ (" m³") (by decide) htext
    · intro hcase
      match a1, a2, l with
      | none, _, _ => rfl
      | some A1, none, _ => rfl
      | some A1, some A2, none => rfl
      | some A1, some A2, some L =>
        rcases hcase with h | h | h | ⟨L', hL', hle⟩
        · exact absurd h (by simp)
        · exact absurd h (by simp)
        · exact absurd h (by simp)
        · rw [updateVolume]
          obtain rfl : L' = L := by
            injection hL' with h
            exact h.symm
          rw [if_pos hle]
  · intro w h
    have hvol : siteVolume (-10) (-20) 5 ("avg") = -75 := by
      rw [siteVolume_eq_avg]
      norm_num
    rw [updateVolume, if_neg (by norm_num : ¬(5 : ℚ) ≤ 0)]
    show renderFixed 2 (siteVolume (-10) (-20) 5 ("avg")) ++ " m³" = _
    rw [hvol, renderFixed,
      jsRoundQ_eq_of_neg _ (-7500) (by norm_num) (by norm_num) (by norm_num)]
    decide

/-- C7: round-trip of the two cited formatters. For every computable input
of the site volume and rational-runoff calculators, parsing the numeric
lead of the displayed string (fixed decimals followed by the unit suffix)
recovers a rational that differs from the computed quantity by at most
half a unit in the last displayed decimal place (10⁻² for the volume,
10⁻³ for the flow rate). -/
theorem C7_format_parse_roundTrip :
    (∀ (A1 A2 L : ℚ) (m : String) (w h : ℝ), 0 < L →
      ∃ v : ℚ,
        parseNumLead (updateVolume (some A1) (some A2) (some L) m w h).text
          = some v ∧
        |v - siteVolume A1 A2 L m| ≤ 1 / (2 * 10 ^ 2)) ∧
    (∀ (C I A : ℚ) (w h : ℝ), 0 ≤ C → 0 ≤ I → 0 ≤ A →
      ∃ v : ℚ,
        parseNumLead (updateRunoff (some C) (some I) (some A) w h).text
          = some v ∧
        |v - runoffQ C I A| ≤ 1 / (2 * 10 ^ 3)) := by
  constructor
  · intro A1 A2 L m w h hL
    rw [updateVolume, if_neg (not_le.mpr hL)]
    exact renderRoundTrip 2 (by norm_num) _ (" m³") (by decide)
  · intro C I A w h hC hI hA
    rw [updateRunoff, if_neg (by push_neg; exact ⟨hC, hI, hA⟩)]
    exact renderRoundTrip 3 (by norm_num) _ (" m³/s") (by decide)

/-- Witness for C7 at the spec's scenario inputs. -/
theorem C7_format_parse_roundTrip_witness :
    (∃ v : ℚ,
      parseNumLead (updateVolume (some 10) (some 20) (some 5) ("avg") 300 150).text
        = some v ∧ |v - siteVolume 10 20 5 ("avg")| ≤ 1 / (2 * 10 ^ 2)) ∧
    (∃ v : ℚ,
      parseNumLead (updateRunoff (some 0.8) (some 50) (some 2) 300 150).text
        = some v ∧ |v - runoffQ 0.8 50 2| ≤ 1 / (2 * 10 ^ 3)) :=
  ⟨C7_format_parse_roundTrip.1 10 20 5 ("avg") 300 150 (by norm_num),
   C7_format_parse_roundTrip.2 0.8 50 2 300 150 (by norm_num) (by norm_num)
     (by norm_num)⟩

/-- C8: determinism and history independence of the site calculator's
pipeline. After any two nonempty edit histories (possibly from different
starting states) that leave the bound fields with the same current values,
the displayed text and the drawn primitives are identical: the rendering
is a function of the current field values only. -/
theorem C8_deterministic (w h : ℝ) (s t : SiteCtrl)
    (es fs : List SiteEvent) (hes : es ≠ []) (hfs : fs ≠ [])
    (hfields : (runSite w h s es).fields = (runSite w h t fs).fields) :
    (runSite w h s es).shown = (runSite w h t fs).shown := by
  rw [runSite_shown w h s es hes, runSite_shown w h t fs hfs, hfields]

/-- Witness for C8: two different histories from different initial states
ending in the same field values display the same thing. -/
theorem C8_deterministic_witness :
    (runSite 300 150 ⟨⟨none, none, none, "avg"⟩, ⟨"—", []⟩⟩
      [SiteEvent.setA1 (some 1), SiteEvent.setA2 (some 2),
       SiteEvent.setL (some 3)]).shown =
    (runSite 300 150 ⟨⟨some 7, some 2, none, "avg"⟩, ⟨"—", []⟩⟩
      [SiteEvent.setL (some 3), SiteEvent.setA1 (some 1)]).shown :=
  C8_deterministic 300 150 _ _ _ _ (by simp) (by simp) rfl

theorem manningQ_example_eq :
    manningQ 2 1 (1 / 1000) (13 / 1000)
      = 2000 / 13 * (((1 : ℝ) / 2) ^ ((2 : ℝ) / 3) * Real.sqrt (1 / 1000)) := by
  have hRh : manningRh 2 1 = 1 / 2 := by
    norm_num [manningRh, manningA, manningP]
  have hA : manningA 2 1 = 2 := by norm_num [manningA]
  rw [manningQ, hRh, hA]
  push_cast
  ring_nf

theorem manningQ_example_pow_six :
    manningQ 2 1 (1 / 1000) (13 / 1000) ^ (6 : ℕ)
      = (2000 / 13 : ℝ) ^ (6 : ℕ) * (1 / 16) * ((1 : ℝ) / 1000) ^ (3 : ℕ) := by
  have hc6 : (((1 : ℝ) / 2) ^ ((2 : ℝ) / 3)) ^ (6 : ℕ) = 1 / 16 := by
    rw [← Real.rpow_natCast (((1 : ℝ) / 2) ^ ((2 : ℝ) / 3)) 6,
      ← Real.rpow_mul (by norm_num : (0 : ℝ) ≤ 1 / 2),
      show ((2 : ℝ) / 3) * ((6 : ℕ) : ℝ) = ((4 : ℕ) : ℝ) by push_cast; norm_num,
      Real.rpow_natCast]
    norm_num
  have hs2 : Real.sqrt ((1 : ℝ) / 1000) ^ (2 : ℕ) = 1 / 1000 :=
    Real.sq_sqrt (by norm_num)
  have hs6 : Real.sqrt ((1 : ℝ) / 1000) ^ (6 : ℕ)
      = ((1 : ℝ) / 1000) ^ (3 : ℕ) := by
    rw [show (6 : ℕ) = 2 * 3 from rfl, pow_mul, hs2]
  rw [manningQ_example_eq, mul_pow, mul_pow, hc6, hs6]
  ring

theorem manningQ_example_nonneg : 0 ≤ manningQ 2 1 (1 / 1000) (13 / 1000) := by
  rw [manningQ_example_eq]
  have h1 : (0 : ℝ) ≤ ((1 : ℝ) / 2) ^ ((2 : ℝ) / 3) :=
    Real.rpow_nonneg (by norm_num) _
  have h2 : (0 : ℝ) ≤ Real.sqrt (1 / 1000) := Real.sqrt_nonneg _
  positivity

theorem manningQ_example_bounds :
    3.06 < manningQ 2 1 (1 / 1000) (13 / 1000) ∧
      manningQ 2 1 (1 / 1000) (13 / 1000) < 3.07 := by
  constructor
  · apply lt_of_pow_lt_pow_left₀ 6 manningQ_example_nonneg
    rw [manningQ_example_pow_six]
    norm_num
  · apply lt_of_pow_lt_pow_left₀ 6 (by norm_num : (0 : ℝ) ≤ 3.07)
    rw [manningQ_example_pow_six]
    norm_num

/-- C1 counterexample: at b = 2, d = 1, S = 0.001, n = 0.013 the Manning
discharge of the code misses the 2.43 m³/s figure of the claim by more
than half a unit (the code's value is strictly above 3.06 m³/s), so the
displayed discharge is not approximately 2.43 m³/s. -/
theorem C1_counterexample :
    1 / 2 < |manningQ 2 1 (1 / 1000) (13 / 1000) - 2.43| := by
  have h := manningQ_example_bounds.1
  have h2 : manningQ 2 1 (1 / 1000) (13 / 1000) - 2.43
      ≤ |manningQ 2 1 (1 / 1000) (13 / 1000) - 2.43| := le_abs_self _
  linarith

/-- C1 amended: with b = 2, d = 1, S = 0.001, n = 0.013 (all parseable and
positive, hence computable) the code computes A = 2, P = 4, Rh = 0.5 and
displays Q = (1/n)·A·Rh^(2/3)·√S to three decimals; Q lies strictly
between 3.06 and 3.07 m³/s (≈ 3.065), not near the 2.43 figure given in
the specification. -/
theorem C1_manning_example (w h : ℝ) :
    (updateManning (some 2) (some 1) (some (1 / 1000)) (some (13 / 1000))
        w h).text
      = RText.num ("") (manningQ 2 1 (1 / 1000) (13 / 1000)) 3 (" m³/s") ∧
    manningA 2 1 = 2 ∧ manningP 2 1 = 4 ∧ manningRh 2 1 = 1 / 2 ∧
    3.06 < manningQ 2 1 (1 / 1000) (13 / 1000) ∧
    manningQ 2 1 (1 / 1000) (13 / 1000) < 3.07 := by
  refine ⟨?_, by norm_num [manningA], by norm_num [manningP],
    by norm_num [manningRh, manningA, manningP],
    manningQ_example_bounds.1, manningQ_example_bounds.2⟩
  rw [updateManning, if_neg (by norm_num)]

theorem tan_epsilon_pos : 0 < Real.tan (1 / 1000000) := by
  apply Real.tan_pos_of_pos_of_lt_pi_div_two (by norm_num)
  have := Real.pi_gt_three
  linarith

theorem bearingNq_zero : bearingNq 0 = 1 := by
  rw [bearingNq]
  simp [Real.tan_zero, Real.tan_pi_div_four]

/-- C5: with a friction angle of exactly 0° the `Nc` factor is computed
with the angle substituted by the 1e-6 epsilon through the JS `||` guard,
so the divisor `tan(1e-6)` is nonzero and `Nc` is a well-defined (finite)
real number — here `Nc = (Nq−1)/tan(1e-6) = 0` since `Nq = 1` at 0° — and
the resulting `q_ult = q` is likewise finite and displayed. -/
theorem C5_bearing_zero_angle (c q gamma B : ℚ) (w h : ℝ) (hB : 0 < B) :
    degToRad 0 = 0 ∧
    jsOr (degToRad 0) (1 / 1000000) = 1 / 1000000 ∧
    Real.tan (jsOr (degToRad 0) (1 / 1000000)) ≠ 0 ∧
    bearingNc (degToRad 0) = 0 ∧
    bearingQult c q gamma B 0 = (q : ℝ) ∧
    (updateBearing (some c) (some q) (some gamma) (some B) (some 0) w h).text
      = RText.num ("") (bearingQult c q gamma B 0) 2 (" kPa") := by
  have hdeg : degToRad 0 = 0 := by rw [degToRad]; push_cast; ring
  have hjs : jsOr (degToRad 0) (1 / 1000000) = 1 / 1000000 := by
    rw [hdeg, jsOr, if_pos rfl]
  have htan : Real.tan (jsOr (degToRad 0) (1 / 1000000)) ≠ 0 := by
    rw [hjs]
    exact ne_of_gt tan_epsilon_pos
  have hNc : bearingNc (degToRad 0) = 0 := by
    rw [bearingNc, hdeg, bearingNq_zero]
    simp
  have hqult : bearingQult c q gamma B 0 = (q : ℝ) := by
    rw [bearingQult, bearingTermC, bearingTermQ, bearingTermG, hNc, hdeg,
      bearingNq_zero, bearingNgamma, bearingNq_zero, Real.tan_zero]
    ring
  refine ⟨hdeg, hjs, htan, hNc, hqult, ?_⟩
  rw [updateBearing, if_neg (not_le.mpr hB)]

/-- Witness for C5 at c = 1, q = 2, γ = 3, B = 1. -/
theorem C5_bearing_zero_angle_witness :
    degToRad 0 = 0 ∧
    jsOr (degToRad 0) (1 / 1000000) = 1 / 1000000 ∧
    Real.tan (jsOr (degToRad 0) (1 / 1000000)) ≠ 0 ∧
    bearingNc (degToRad 0) = 0 ∧
    bearingQult 1 2 3 1 0 = ((2 : ℚ) : ℝ) ∧
    (updateBearing (some 1) (some 2) (some 3) (some 1) (some 0) 300 150).text
      = RText.num ("") (bearingQult 1 2 3 1 0) 2 (" kPa") :=
  C5_bearing_zero_angle 1 2 3 1 300 150 (by norm_num)

/-- C4 counterexample: the input c = 0, q = 0, γ = 0, B = 1, φ = 0 is
computable (all fields parse, B > 0) and the numeric result is displayed,
yet `drawBearingBar` draws nothing because the three capacity terms sum to
0, so the canvas stays blank in the Computable state. -/
theorem C4_counterexample :
    (updateBearing (some 0) (some 0) (some 0) (some 1) (some 0) 300 150).prims
      = [] ∧
    (updateBearing (some 0) (some 0) (some 0) (some 1) (some 0) 300 150).text
      = RText.num ("") (bearingQult 0 0 0 1 0) 2 (" kPa") := by
  rw [updateBearing, if_neg (by norm_num)]
  refine ⟨?_, rfl⟩
  show drawBearingBar 300 150 (bearingTermC 0 0) (bearingTermQ 0 0)
      (bearingTermG 0 1 0) = []
  have hc : bearingTermC 0 0 = 0 := by rw [bearingTermC]; push_cast; ring
  have hq : bearingTermQ 0 0 = 0 := by rw [bearingTermQ]; push_cast; ring
  have hg : bearingTermG 0 1 0 = 0 := by rw [bearingTermG]; push_cast; ring
  rw [drawBearingBar, hc, hq, hg, if_pos (by norm_num)]

/-- C4 amended: each calculator is two-state on current validity, and the
bearing calculator in the Computable state always renders the formatted
result text, but it draws a diagram only when the three capacity terms sum
to a positive value; when the sum is ≤ 0 (e.g. all of c, q, γ zero) the
canvas stays blank next to the numeric result. -/
theorem C4_bearing_two_state (c q gamma B phi : ℚ) (w h : ℝ) :
    (B ≤ 0 →
      updateBearing (some c) (some q) (some gamma) (some B) (some phi) w h
        = ⟨RText.dash, []⟩) ∧
    (0 < B →
      (updateBearing (some c) (some q) (some gamma) (some B) (some phi) w h).text
        = RText.num ("") (bearingQult c q gamma B phi) 2 (" kPa") ∧
      (0 < bearingTermC c phi + bearingTermQ q phi + bearingTermG gamma B phi →
        (updateBearing (some c) (some q) (some gamma) (some B) (some phi) w h).prims
          ≠ []) ∧
      (bearingTermC c phi + bearingTermQ q phi + bearingTermG gamma B phi ≤ 0 →
        (updateBearing (some c) (some q) (some gamma) (some B) (some phi) w h).prims
          = [])) := by
  constructor
  · intro hB
    rw [updateBearing, if_pos hB]
  · intro hB
    rw [updateBearing, if_neg (not_le.mpr hB)]
    refine ⟨rfl, ?_, ?_⟩
    · intro hpos
      show drawBearingBar w h _ _ _ ≠ []
      rw [drawBearingBar, if_neg (not_le.mpr hpos)]
      simp
    · intro hle
      show drawBearingBar w h _ _ _ = []
      rw [drawBearingBar, if_pos hle]

/-- Witness for C4's amended theorem at an input with positive term sum
(q = 1 gives termQ = Nq(0°) = 1 > 0) and at a non-computable input. -/
theorem C4_bearing_two_state_witness :
    (updateBearing (some 0) (some 1) (some 0) (some 0) (some 0) 300 150
      = ⟨RText.dash, []⟩) ∧
    (updateBearing (some 0) (some 1) (some 0) (some 1) (some 0) 300 150).prims
      ≠ [] := by
  constructor
  · exact (C4_bearing_two_state 0 1 0 0 0 300 150).1 (by norm_num)
  · apply ((C4_bearing_two_state 0 1 0 1 0 300 150).2 (by norm_num)).2.1
    have hc : bearingTermC 0 0 = 0 := by rw [bearingTermC]; push_cast; ring
    have hq : bearingTermQ 1 0 = 1 := by
      rw [bearingTermQ, degToRad, bearingNq]
      push_cast
      simp [Real.tan_zero, Real.tan_pi_div_four]
    have hg : bearingTermG 0 1 0 = 0 := by rw [bearingTermG]; push_cast; ring
    rw [hc, hq, hg]
    norm_num

/-- C6: in the Streeter–Phelps calculator any input with k1 = k2 — even
with all four fields parsing as nonnegative numbers — takes the guard
branch, so the canvas is cleared, `drawDOSag` is never invoked, and the
`(k2 − k1)` division of the formula is never evaluated. -/
theorem C6_do_equal_rates (k1 k2 La Da : ℚ) (w h : ℝ) (h1 : 0 ≤ k1)
    (h2 : 0 ≤ k2) (h3 : 0 ≤ La) (h4 : 0 ≤ Da) (heq : k1 = k2) :
    updateDO (some k1) (some k2) (some La) (some Da) w h = ⟨[]⟩ := by
  rw [updateDO, if_pos (Or.inr (Or.inr (Or.inr (Or.inr heq))))]

/-- Witness for C6 at k1 = k2 = 1, La = 2, Da = 0. -/
theorem C6_do_equal_rates_witness :
    updateDO (some 1) (some 1) (some 2) (some 0) 300 150 = ⟨[]⟩ :=
  C6_do_equal_rates 1 1 2 0 300 150 (by norm_num) (by norm_num) (by norm_num)
    (by norm_num) rfl

theorem bucklingPcrkN_example :
    bucklingPcrkN 200 (1 / 10000) 2 1 = Real.pi ^ 2 * 5000 := by
  rw [bucklingPcrkN]
  push_cast
  ring_nf

theorem bucklingArrowHeight_example :
    bucklingArrowHeight (bucklingPcrkN 200 (1 / 10000) 2 1) = 100 := by
  rw [bucklingPcrkN_example, bucklingArrowHeight, min_eq_right]
  nlinarith [Real.pi_gt_three]

/-- C3 counterexample: at the computable buckling input E = 200 GPa,
I = 10⁻⁴ m⁴, L = 2 m, K = 1 on a 300×150 canvas, the render contains the
load-arrow segment from (150, 20) to (150, −90): its length saturates at
100 px but its tip's y-coordinate −90 is strictly below 0, outside the
canvas bounds `[0, 300] × [0, 150]` — the issued primitives do not all lie
within the canvas. -/
theorem C3_counterexample :
    Prim.segment 150 20 150 (-90)
      ∈ (updateBuckling (some 200) (some (1 / 10000)) (some 2) (some 1)
          300 150).prims ∧
    ((-90 : ℝ) < 0 ∧ 0 ≤ (150 : ℝ)) := by
  refine ⟨?_, by norm_num, by norm_num⟩
  have hmem : Prim.segment (300 / 2 - 20 + 20) 20 (300 / 2 - 20 + 20)
      (20 - bucklingArrowHeight (bucklingPcrkN 200 (1 / 10000) 2 1) - 10)
      ∈ (updateBuckling (some 200) (some (1 / 10000)) (some 2) (some 1)
          300 150).prims := by
    rw [updateBuckling, if_neg (by norm_num)]
    show _ ∈ drawBucklingColumn 300 150 (bucklingPcrkN 200 (1 / 10000) 2 1)
    rw [drawBucklingColumn]
    exact List.mem_cons_of_mem _ (List.mem_cons_of_mem _ (List.mem_cons_self _ _))
  have heq : Prim.segment (300 / 2 - 20 + 20) 20 (300 / 2 - 20 + 20)
      (20 - bucklingArrowHeight (bucklingPcrkN 200 (1 / 10000) 2 1) - 10)
      = Prim.segment 150 20 150 (-90) := by
    rw [bucklingArrowHeight_example]
    norm_num
  rw [heq] at hmem
  exact hmem

/-- C3 amended: for every computable buckling input the load arrow issued
by the renderer has height `min(Pcr/1000·20, 100)`, clamped into (0, 100];
consequently its tip `y = 10 − arrowHeight` never drops below −90, and it
stays inside the canvas (y ≥ 0) only when Pcr ≤ 500 kN — for larger loads
the arrow extends above the top edge, so the diagram can overflow the
canvas even though the arrow length saturates. -/
theorem C3_buckling_arrow (E I L K : ℚ) (w h : ℝ)
    (hE : 0 < E) (hI : 0 < I) (hL : 0 < L) (hK : 0 < K) :
    Prim.segment (w / 2 - 20 + 20) 20 (w / 2 - 20 + 20)
        (20 - bucklingArrowHeight (bucklingPcrkN E I L K) - 10)
      ∈ (updateBuckling (some E) (some I) (some L) (some K) w h).prims ∧
    0 < bucklingArrowHeight (bucklingPcrkN E I L K) ∧
    bucklingArrowHeight (bucklingPcrkN E I L K) ≤ 100 ∧
    -90 ≤ 20 - bucklingArrowHeight (bucklingPcrkN E I L K) - 10 ∧
    (bucklingPcrkN E I L K ≤ 500 →
      0 ≤ 20 - bucklingArrowHeight (bucklingPcrkN E I L K) - 10) := by
  have hEr : (0 : ℝ) < (E : ℝ) := by exact_mod_cast hE
  have hIr : (0 : ℝ) < (I : ℝ) := by exact_mod_cast hI
  have hLr : (0 : ℝ) < (L : ℝ) := by exact_mod_cast hL
  have hKr : (0 : ℝ) < (K : ℝ) := by exact_mod_cast hK
  have hP : 0 < bucklingPcrkN E I L K := by
    rw [bucklingPcrkN]
    have hpi := Real.pi_gt_three
    positivity
  have hAHpos : 0 < bucklingArrowHeight (bucklingPcrkN E I L K) := by
    rw [bucklingArrowHeight]
    apply lt_min
    · positivity
    · norm_num
  have hAHle : bucklingArrowHeight (bucklingPcrkN E I L K) ≤ 100 :=
    min_le_right _ _
  refine ⟨?_, hAHpos, hAHle, by linarith, ?_⟩
  · have hguard : ¬(E ≤ 0 ∨ I ≤ 0 ∨ L ≤ 0 ∨ K ≤ 0) := by
      push_neg
      exact ⟨hE, hI, hL, hK⟩
    rw [updateBuckling, if_neg hguard]
    show _ ∈ drawBucklingColumn w h (bucklingPcrkN E I L K)
    rw [drawBucklingColumn]
    exact List.mem_cons_of_mem _ (List.mem_cons_of_mem _ (List.mem_cons_self _ _))
  · intro hle
    have : bucklingArrowHeight (bucklingPcrkN E I L K)
        ≤ bucklingPcrkN E I L K / 1000 * 20 := min_le_left _ _
    have h10 : bucklingPcrkN E I L K / 1000 * 20 ≤ 10 := by linarith
    linarith

/-- Witness for C3's amended theorem at E = I = L = K = 1. -/
theorem C3_buckling_arrow_witness :
    Prim.segment (300 / 2 - 20 + 20) 20 (300 / 2 - 20 + 20)
        (20 - bucklingArrowHeight (bucklingPcrkN 1 1 1 1) - 10)
      ∈ (updateBuckling (some 1) (some 1) (some 1) (some 1) 300 150).prims ∧
    0 < bucklingArrowHeight (bucklingPcrkN 1 1 1 1) ∧
    bucklingArrowHeight (bucklingPcrkN 1 1 1 1) ≤ 100 ∧
    -90 ≤ 20 - bucklingArrowHeight (bucklingPcrkN 1 1 1 1) - 10 ∧
    (bucklingPcrkN 1 1 1 1 ≤ 500 →
      0 ≤ 20 - bucklingArrowHeight (bucklingPcrkN 1 1 1 1) - 10) :=
  C3_buckling_arrow 1 1 1 1 300 150 (by norm_num) (by norm_num) (by norm_num)
    (by norm_num)

/-- C2 counterexample: the stopping-sight-distance calculator with v = 10,
tr = 1, f = 0, G = 0 is in a non-computable state (the braking denominator
19.6·(f+G) is 0), yet the text shown is the message "Invalid parameters",
not the em-dash placeholder. -/
theorem C2_counterexample :
    (updateSSD (some 10) (some 1) (some 0) (some 0) 300 150).text
      = "Invalid parameters" ∧
    (updateSSD (some 10) (some 1) (some 0) (some 0) 300 150).prims = [] := by
  have h1 : ¬((10 : ℚ) ≤ 0 ∨ (1 : ℚ) ≤ 0) := by norm_num
  have h2 : ssdDenom 0 0 ≤ 0 := by norm_num [ssdDenom]
  rw [updateSSD, if_neg h1, if_pos h2]
  exact ⟨rfl, rfl⟩

/-- C2 amended: for every calculator, every non-computable input state
(parse failure or domain-constraint violation) silently resets the text
output to the em-dash placeholder (labeled placeholders for the EVM
calculator; the flow and DO-sag calculators have no text output) and
clears the canvas — with one exception: the stopping-sight-distance
calculator's second guard (fields parsed, v > 0, tr > 0, but braking
denominator 19.6(f+G) ≤ 0) sets the text to "Invalid parameters" while
still clearing the canvas. No handler throws: each is a total function. -/
theorem C2_placeholder_on_invalid :
    (∀ (a1 a2 l : Option ℚ) (m : String) (w h : ℝ),
      a1 = none ∨ a2 = none ∨ failsPos l →
      updateVolume a1 a2 l m w h = ⟨"—", []⟩) ∧
    (∀ (c i a : Option ℚ) (w h : ℝ),
      failsNonneg c ∨ failsNonneg i ∨ failsNonneg a →
      updateRunoff c i a w h = ⟨"—", []⟩) ∧
    (∀ (c s p : Option ℚ) (w h : ℝ),
      c = none ∨ s = none ∨ p = none →
      updateShear c s p w h = ⟨RText.dash, []⟩) ∧
    (∀ (c q g B p : Option ℚ) (w h : ℝ),
      c = none ∨ q = none ∨ g = none ∨ p = none ∨ failsPos B →
      updateBearing c q g B p w h = ⟨RText.dash, []⟩) ∧
    (∀ (bw bl bE bI : Option ℚ) (w h : ℝ),
      failsPos bw ∨ failsPos bl ∨ failsPos bE ∨ failsPos bI →
      updateBeam bw bl bE bI w h = (⟨"—", []⟩, "—")) ∧
    (∀ (e i l k : Option ℚ) (w h : ℝ),
      failsPos e ∨ failsPos i ∨ failsPos l ∨ failsPos k →
      updateBuckling e i l k w h = ⟨RText.dash, []⟩) ∧
    (∀ (vf kj : Option ℚ) (w h : ℝ),
      failsPos vf ∨ failsPos kj →
      updateFlow vf kj w h = ⟨[]⟩) ∧
    (∀ (v tr f G : Option ℚ) (w h : ℝ),
      failsPos v ∨ failsPos tr ∨ f = none ∨ G = none →
      updateSSD v tr f G w h = ⟨"—", []⟩) ∧
    (∀ (v tr f G : ℚ) (w h : ℝ),
      0 < v → 0 < tr → ssdDenom f G ≤ 0 →
      updateSSD (some v) (some tr) (some f) (some G) w h
        = ⟨"Invalid parameters", []⟩) ∧
    (∀ (k1 k2 La Da : Option ℚ) (w h : ℝ),
      failsNonneg k1 ∨ failsNonneg k2 ∨ failsNonneg La ∨ failsNonneg Da ∨
        (∃ x : ℚ, k1 = some x ∧ k2 = some x) →
      updateDO k1 k2 La Da w h = ⟨[]⟩) ∧
    (∀ (b d S n : Option ℚ) (w h : ℝ),
      failsPos b ∨ failsPos d ∨ failsPos S ∨ failsPos n →
      updateManning b d S n w h = ⟨RText.dash, []⟩) ∧
    (∀ (ev pv ac bac : Option ℚ) (w h : ℝ),
      failsPos ev ∨ failsPos pv ∨ failsPos ac ∨ failsPos bac →
      updateEVM ev pv ac bac w h = (⟨"SPI: —", []⟩, "CPI: —", "EAC: —")) := by
  refine ⟨?_, ?_, ?_, ?_, ?_, ?_, ?_, ?_, ?_, ?_, ?_, ?_⟩
  · intro a1 a2 l m w h hnc
    match a1, a2, l with
    | none, _, _ => rfl
    | some A1, none, _ => rfl
    | some A1, some A2, none => rfl
    | some A1, some A2, some L =>
      rcases hnc with hc | hc | hc
      · exact absurd hc (by simp)
      · exact absurd hc (by simp)
      · rw [updateVolume, if_pos (hc L rfl)]
  · intro c i a w h hnc
    match c, i, a with
    | none, _, _ => rfl
    | some C, none, _ => rfl
    | some C, some I, none => rfl
    | some C, some I, some A =>
      rw [updateRunoff]
      rcases hnc with hc | hc | hc
      · rw [if_pos (Or.inl (hc C rfl))]
      · rw [if_pos (Or.inr (Or.inl (hc I rfl)))]
      · rw [if_pos (Or.inr (Or.inr (hc A rfl)))]
  · intro c s p w h hnc
    match c, s, p with
    | none, _, _ => rfl
    | some C, none, _ => rfl
    | some C, some S, none => rfl
    | some C, some S, some P =>
      rcases hnc with hc | hc | hc <;> exact absurd hc (by simp)
  · intro c q g B p w h hnc
    match c, q, g, B, p with
    | none, _, _, _, _ => rfl
    | some C, none, _, _, _ => rfl
    | some C, some Q, none, _, _ => rfl
    | some C, some Q, some G, none, _ => rfl
    | some C, some Q, some G, some Bv, none => rfl
    | some C, some Q, some G, some Bv, some P =>
      rcases hnc with hc | hc | hc | hc | hc
      · exact absurd hc (by simp)
      · exact absurd hc (by simp)
      · exact absurd hc (by simp)
      · exact absurd hc (by simp)
      · rw [updateBearing, if_pos (hc Bv rfl)]
  · intro bw bl bE bI w h hnc
    match bw, bl, bE, bI with
    | none, _, _, _ => rfl
    | some W, none, _, _ => rfl
    | some W, some L, none, _ => rfl
    | some W, some L, some E, none => rfl
    | some W, some L, some E, some I =>
      rw [updateBeam]
      rcases hnc with hc | hc | hc | hc
      · rw [if_pos (Or.inl (hc W rfl))]
      · rw [if_pos (Or.inr (Or.inl (hc L rfl)))]
      · rw [if_pos (Or.inr (Or.inr (Or.inl (hc E rfl))))]
      · rw [if_pos (Or.inr (Or.inr (Or.inr (hc I rfl))))]
  · intro e i l k w h hnc
    match e, i, l, k with
    | none, _, _, _ => rfl
    | some E, none, _, _ => rfl
    | some E, some I, none, _ => rfl
    | some E, some I, some L, none => rfl
    | some E, some I, some L, some K =>
      rw [updateBuckling]
      rcases hnc with hc | hc | hc | hc
      · rw [if_pos (Or.inl (hc E rfl))]
      · rw [if_pos (Or.inr (Or.inl (hc I rfl)))]
      · rw [if_pos (Or.inr (Or.inr (Or.inl (hc L rfl))))]
      · rw [if_pos (Or.inr (Or.inr (Or.inr (hc K rfl))))]
  · intro vf kj w h hnc
    match vf, kj with
    | none, _ => rfl
    | some V, none => rfl
    | some V, some Kj =>
      rw [updateFlow]
      rcases hnc with hc | hc
      · rw [if_pos (Or.inl (hc V rfl))]
      · rw [if_pos (Or.inr (hc Kj rfl))]
  · intro v tr f G w h hnc
    match v, tr, f, G with
    | none, _, _, _ => rfl
    | some V, none, _, _ => rfl
    | some V, some T, none, _ => rfl
    | some V, some T, some F, none => rfl
    | some V, some T, some F, some Gv =>
      rw [updateSSD]
      rcases hnc with hc | hc | hc | hc
      · rw [if_pos (Or.inl (hc V rfl))]
      · rw [if_pos (Or.inr (hc T rfl))]
      · exact absurd hc (by simp)
      · exact absurd hc (by simp)
  · intro v tr f G w h hv htr hden
    have h1 : ¬(v ≤ 0 ∨ tr ≤ 0) := by
      push_neg
      exact ⟨hv, htr⟩
    rw [updateSSD, if_neg h1, if_pos hden]
  · intro k1 k2 La Da w h hnc
    match k1, k2, La, Da with
    | none, _, _, _ =>
      rcases hnc with hc | hc | hc | hc | ⟨x, hx, _⟩
      · rfl
      · rfl
      · rfl
      · rfl
      · exact absurd hx (by simp)
    | some K1, none, _, _ =>
      rcases hnc with hc | hc | hc | hc | ⟨x, _, hx⟩
      · rfl
      · rfl
      · rfl
      · rfl
      · exact absurd hx (by simp)
    | some K1, some K2, none, _ => rfl
    | some K1, some K2, some L, none => rfl
    | some K1, some K2, some L, some D =>
      rw [updateDO]
      rcases hnc with hc | hc | hc | hc | ⟨x, hx1, hx2⟩
      · rw [if_pos (Or.inl (hc K1 rfl))]
      · rw [if_pos (Or.inr (Or.inl (hc K2 rfl)))]
      · rw [if_pos (Or.inr (Or.inr (Or.inl (hc L rfl))))]
      · rw [if_pos (Or.inr (Or.inr (Or.inr (Or.inl (hc D rfl)))))]
      · have e1 : K1 = x := Option.some_inj.mp hx1
        have e2 : K2 = x := Option.some_inj.mp hx2
        rw [if_pos (Or.inr (Or.inr (Or.inr (Or.inr (by rw [e1, e2])))))]
  · intro b d S n w h hnc
    match b, d, S, n with
    | none, _, _, _ => rfl
    | some B, none, _, _ => rfl
    | some B, some D, none, _ => rfl
    | some B, some D, some Sv, none => rfl
    | some B, some D, some Sv, some N =>
      rw [updateManning]
      rcases hnc with hc | hc | hc | hc
      · rw [if_pos (Or.inl (hc B rfl))]
      · rw [if_pos (Or.inr (Or.inl (hc D rfl)))]
      · rw [if_pos (Or.inr (Or.inr (Or.inl (hc Sv rfl))))]
      · rw [if_pos (Or.inr (Or.inr (Or.inr (hc N rfl))))]
  · intro ev pv ac bac w h hnc
    match ev, pv, ac, bac with
    | none, _, _, _ => rfl
    | some E, none, _, _ => rfl
    | some E, some P, none, _ => rfl
    | some E, some P, some A, none => rfl
    | some E, some P, some A, some B =>
      rw [updateEVM]
      rcases hnc with hc | hc | hc | hc
      · rw [if_pos (Or.inl (hc E rfl))]
      · rw [if_pos (Or.inr (Or.inl (hc P rfl)))]
      · rw [if_pos (Or.inr (Or.inr (Or.inl (hc A rfl))))]
      · rw [if_pos (Or.inr (Or.inr (Or.inr (hc B rfl))))]

/-- Witness for C2's amended theorem: a parse failure on the site
calculator yields the placeholder and a cleared canvas, and the SSD
exception yields the message with a cleared canvas. -/
theorem C2_placeholder_on_invalid_witness :
    updateVolume none (some 1) (some 1) ("avg") 300 150 = ⟨"—", []⟩ ∧
    updateSSD (some 10) (some 1) (some 0) (some 0) 300 150
      = ⟨"Invalid parameters", []⟩ :=
  ⟨C2_placeholder_on_invalid.1 none (some 1) (some 1) ("avg") 300 150
      (Or.inl rfl),
   C2_placeholder_on_invalid.2.2.2.2.2.2.2.2.1 10 1 0 0 300 150 (by norm_num)
      (by norm_num) (by norm_num [ssdDenom])⟩
